import Mathlib

/-!
# Verification of the shelfie persistence and library-reconciliation core

Shallow embedding of the library data model, the add-from-search
reconciler (`handleAddMovie`), the quick status toggle
(`handleQuickStatusUpdate` / `updateMovieDetails`), the up-next ranking
(`upNext`), the manual-entry path (`ManualEntryModal.handleSubmit`), and
the persistence layer (`db.ts`: `initDB`, `migrateFromLocalStorage`,
`getAllMovies`, `bulkSaveMovies`; `movieService.ts`: `initStorage`,
`exportData`, `importData`, `overwriteLibrary`).

Modelling conventions:
* JavaScript numbers are modelled as `Int`; no verified claim depends on
  fractional values (timestamps, seeds, ids and counts are integral in
  the source).
* Optional fields (`tmdbId?`, `plannedDate?`, ...) are `Option`s; the
  JavaScript truthiness tests that guard them are modelled explicitly
  (`numTruthy`, `strTruthy`, `hasPlanned`): `0`, `""`, `undefined` are
  falsy.
* `string.localeCompare` on `YYYY-MM-DD` dates is modelled by
  lexicographic `String` comparison, which agrees with it on ASCII.
* Fallible operations return `Except` / `Option`.
-/

/-- `MovieStatus` from `types.ts`: `'watchlist' | 'watched' | 'dropped'`. -/
inductive MovieStatus where
  | watchlist
  | watched
  | dropped
deriving DecidableEq, Repr

/-- `MediaType` from `types.ts`: `'movie' | 'tv' | 'book'`. -/
inductive MediaType where
  | movie
  | tv
  | book
deriving DecidableEq, Repr

/-- `WatchProvider` from `types.ts`. -/
structure WatchProvider where
  providerId : Int
  providerName : String
  logoPath : String
deriving DecidableEq, Repr

/-- `WatchProvidersData` from `types.ts`. -/
structure WatchProvidersData where
  link : String
  flatrate : List WatchProvider
  rent : List WatchProvider
  buy : List WatchProvider
deriving DecidableEq, Repr

/-- `Episode` from `types.ts`. -/
structure Episode where
  id : Int
  name : String
  episode_number : Int
  air_date : Option String
  overview : String
  still_path : Option String
  isWatched : Bool
  vote_average : Option Int
deriving DecidableEq, Repr

/-- `Season` from `types.ts`. -/
structure Season where
  id : Int
  name : String
  season_number : Int
  poster_path : Option String
  episode_count : Int
  air_date : Option String
  episodes : Option (List Episode)
deriving DecidableEq, Repr

/-- The `Movie` library record from `types.ts`. -/
structure Movie where
  id : String
  tmdbId : Option Int
  openLibraryId : Option String
  title : String
  year : String
  genre : List String
  description : String
  director : String
  status : MovieStatus
  rating : Int
  userReview : Option String
  posterPath : Option String
  posterSeed : Int
  addedAt : Int
  mediaType : MediaType
  tmdbRating : Option Int
  pageCount : Option Int
  plannedDate : Option String
  watchProviders : Option WatchProvidersData
  seasons : Option (List Season)
deriving DecidableEq, Repr

/-- The discriminated `id` of a `SearchResult` from `types.ts`:
`string` for Open Library, `number` for TMDB. -/
inductive SId where
  | num (n : Int)
  | str (s : String)
deriving DecidableEq, Repr

/-- `SearchResult` from `types.ts`. -/
structure SearchResult where
  id : SId
  title : String
  year : String
  genre : List String
  description : String
  director : String
  posterPath : Option String
  mediaType : MediaType
  voteAverage : Int
  pageCount : Option Int
deriving DecidableEq, Repr

/-- JavaScript truthiness of an optional number: `undefined` and `0` are
falsy. -/
def numTruthy : Option Int → Bool
  | some n => n != 0
  | none => false

/-- JavaScript truthiness of an optional string: `undefined` and `""` are
falsy. -/
def strTruthy : Option String → Bool
  | some s => s != ""
  | none => false

/-- The candidate record built at the top of `handleAddMovie`
(`App.tsx`): fresh `id`, `tmdbId` from a numeric search-result id,
`openLibraryId` from a string one, display fields copied,
`status = targetStatus`, `rating = 0`, fresh `posterSeed`,
`addedAt = Date.now()`. -/
def buildCandidate (result : SearchResult) (targetStatus : MovieStatus)
    (newId : String) (seed now : Int) : Movie :=
  { id := newId
    tmdbId := match result.id with | .num n => some n | .str _ => none
    openLibraryId := match result.id with | .str s => some s | .num _ => none
    title := result.title
    year := result.year
    genre := result.genre
    description := result.description
    director := result.director
    status := targetStatus
    rating := 0
    userReview := none
    posterPath := result.posterPath
    posterSeed := seed
    addedAt := now
    mediaType := result.mediaType
    tmdbRating := some result.voteAverage
    pageCount := result.pageCount
    plannedDate := none
    watchProviders := none
    seasons := none }

/-- The duplicate test in `handleAddMovie`'s `findIndex`:
`(m.tmdbId && m.tmdbId === newMovie.tmdbId) ||
 (m.openLibraryId && m.openLibraryId === newMovie.openLibraryId)`. -/
def dupMatches (m cand : Movie) : Bool :=
  (numTruthy m.tmdbId && m.tmdbId == cand.tmdbId) ||
    (strTruthy m.openLibraryId && m.openLibraryId == cand.openLibraryId)

/-- The body of `handleAddMovie`'s `setMovies` updater restricted to the
duplicate branch: walk the collection for the first record matching the
candidate and replace it in place with a copy whose `status` is the
target; `none` when no record matches. Together with the returned saved
record. -/
def addLoop (cand : Movie) (targetStatus : MovieStatus) :
    List Movie → Option (List Movie × Movie)
  | [] => none
  | m :: rest =>
    if dupMatches m cand then
      let updated := { m with status := targetStatus }
      some (updated :: rest, updated)
    else
      match addLoop cand targetStatus rest with
      | some (r, s) => some (m :: r, s)
      | none => none

/-- `handleAddMovie` (`App.tsx`): build the candidate, update the first
duplicate in place if one exists, otherwise prepend the candidate.
Returns the new collection together with the record passed to
`saveMovie` (the single persisted write). -/
def handleAddMovie (result : SearchResult) (targetStatus : MovieStatus)
    (newId : String) (seed now : Int) (prev : List Movie) :
    List Movie × Movie :=
  let cand := buildCandidate result targetStatus newId seed now
  match addLoop cand targetStatus prev with
  | some res => res
  | none => (cand :: prev, cand)

/-- One `addFromSearch` call: the search result, the target status, and
the per-call fresh values (`crypto.randomUUID()`, the random poster
seed, `Date.now()`). -/
structure AddCall where
  result : SearchResult
  targetStatus : MovieStatus
  newId : String
  seed : Int
  now : Int
deriving DecidableEq, Repr

/-- Run a sequence of `handleAddMovie` calls against a collection. -/
def runAdds (prev : List Movie) (calls : List AddCall) : List Movie :=
  calls.foldl
    (fun coll c => (handleAddMovie c.result c.targetStatus c.newId c.seed c.now coll).1)
    prev

/-- Whether a library record matches an external reference `r` under the
duplicate test of `handleAddMovie` (per catalog family, with the
source's truthiness guards). -/
def refMatches (r : SId) (m : Movie) : Bool :=
  match r with
  | .num n => numTruthy m.tmdbId && m.tmdbId == some n
  | .str s => strTruthy m.openLibraryId && m.openLibraryId == some s

/-- JavaScript truthiness of the search-result id itself: `0` and `""`
are falsy. -/
def sidTruthy : SId → Bool
  | .num n => n != 0
  | .str s => s != ""

/-! ## Manual entry (`ManualEntryModal.tsx`) -/

/-- The form state of `ManualEntryModal`. -/
structure ManualForm where
  title : String
  year : String
  director : String
  description : String
  genre : String
  mediaType : MediaType
deriving DecidableEq, Repr

/-- The genre split in `handleSubmit`:
`formData.genre.split(',').map(g => g.trim()).filter(Boolean)`. -/
def splitGenres (s : String) : List String :=
  ((s.splitOn ",").map String.trim).filter (fun g => g != "")

/-- `ManualEntryModal.handleSubmit`: builds a `SearchResult` with
`id: Date.now()` (a number), empty-string fallbacks for director and
description, no poster and `voteAverage = 0`. -/
def manualEntryResult (form : ManualForm) (now : Int) : SearchResult :=
  { id := .num now
    title := form.title
    year := form.year
    director :=
      if form.director != "" then form.director
      else if form.mediaType == .book then "Unknown Author" else "Unknown"
    description :=
      if form.description != "" then form.description
      else "No description provided."
    genre := splitGenres form.genre
    posterPath := none
    mediaType := form.mediaType
    voteAverage := 0
    pageCount := none }

/-! ## Field edits and the quick status toggle (`App.tsx`) -/

/-- The `updates` object built by `handleQuickStatusUpdate`: a new
status, plus an explicit `plannedDate: undefined` entry when the new
status is `'watched'`. -/
structure QuickUpdates where
  status : MovieStatus
  clearPlanned : Bool
deriving DecidableEq, Repr

/-- The spread `{ ...m, ...updates }` in `updateMovieDetails` for a
`QuickUpdates` object: overwrite `status`, and overwrite `plannedDate`
with `undefined` when the updates object carries that key. -/
def applyQuickUpdates (u : QuickUpdates) (m : Movie) : Movie :=
  let m1 := { m with status := u.status }
  if u.clearPlanned then { m1 with plannedDate := none } else m1

/-- `updateMovieDetails` (`App.tsx`) specialised to a `QuickUpdates`
object: replace the record with matching `id` by its merge with the
updates; every other record is untouched. -/
def updateMovieDetails (id : String) (u : QuickUpdates)
    (movies : List Movie) : List Movie :=
  movies.map (fun m => if m.id == id then applyQuickUpdates u m else m)

/-- The updates computed by `handleQuickStatusUpdate` (`App.tsx`):
watchlist toggles to watched (clearing the plan); anything else moves
back to watchlist. -/
def quickUpdates (m : Movie) : QuickUpdates :=
  let newStatus : MovieStatus :=
    if m.status == .watchlist then .watched else .watchlist
  { status := newStatus, clearPlanned := newStatus == .watched }

/-- `handleQuickStatusUpdate` (`App.tsx`): compute the toggled status
and apply it through `updateMovieDetails`. -/
def handleQuickStatusUpdate (movie : Movie) (movies : List Movie) :
    List Movie :=
  updateMovieDetails movie.id (quickUpdates movie) movies

/-! ## Up-next ranking (`App.tsx`, `upNext` memo) -/

/-- JavaScript truthiness of `m.plannedDate`. -/
def hasPlanned (m : Movie) : Bool := strTruthy m.plannedDate

/-- The planned date as a plain string (only read under `hasPlanned`). -/
def dateOf (m : Movie) : String := m.plannedDate.getD ""

/-- Lexicographic comparison of character lists (the order
`localeCompare` induces on ASCII strings). -/
def lexLtChars : List Char → List Char → Bool
  | [], [] => false
  | [], _ :: _ => true
  | _ :: _, [] => false
  | c :: cs, d :: ds =>
    if c < d then true else if d < c then false else lexLtChars cs ds

/-- Lexicographic strict order on strings. -/
def strLtB (s t : String) : Bool := lexLtChars s.data t.data

/-- `a.localeCompare(b)` on ASCII date strings: negative, zero or
positive according to lexicographic order. -/
def strCmpInt (s t : String) : Int :=
  if strLtB s t then -1 else if strLtB t s then 1 else 0

/-- The comparator of `getTop` inside the `upNext` memo:
planned-vs-planned by date, planned before unplanned, otherwise by
`addedAt` ascending. -/
def cmpUpNext (a b : Movie) : Int :=
  if hasPlanned a && hasPlanned b then strCmpInt (dateOf a) (dateOf b)
  else if hasPlanned a && !hasPlanned b then -1
  else if !hasPlanned a && hasPlanned b then 1
  else a.addedAt - b.addedAt

/-- The non-strict order induced by the `upNext` comparator. -/
def upLe (a b : Movie) : Prop := cmpUpNext a b ≤ 0

instance : DecidableRel upLe :=
  fun a b => inferInstanceAs (Decidable (cmpUpNext a b ≤ 0))

/-- The candidate pool of `getTop`: to-consume records of the given
media-type group. -/
def upNextCandidates (movies : List Movie) (types : List MediaType) :
    List Movie :=
  (movies.filter (fun m => m.status == .watchlist)).filter
    (fun m => types.contains m.mediaType)

/-- `getTop` inside the `upNext` memo: sort the candidate pool with the
comparator and take the first element (absent when the pool is empty). -/
def upNextPick (movies : List Movie) (types : List MediaType) :
    Option Movie :=
  (List.insertionSort upLe (upNextCandidates movies types)).head?

/-- Date `s` is no later than date `t`: the lexicographic order on
`YYYY-MM-DD` strings coincides with chronological order. -/
def specDateLe (s t : String) : Prop := strLtB t s = false

/-- The up-next ranking order as the specification words it: both
planned compare by earlier date; planned outranks unplanned; among
unplanned the smaller `addedAt` wins. Stated from the spec, to be
compared with the comparator taken from the source. -/
def specUpNextLe (a b : Movie) : Prop :=
  (hasPlanned a = true ∧ hasPlanned b = true ∧ specDateLe (dateOf a) (dateOf b)) ∨
    (hasPlanned a = true ∧ hasPlanned b = false) ∨
    (hasPlanned a = false ∧ hasPlanned b = false ∧ a.addedAt ≤ b.addedAt)

/-! ## Persistence layer (`db.ts`, `movieService.ts`) -/

/-- A legacy record under the `shelfie_library_v1` localStorage key: a
`Movie` whose `mediaType` may be missing (pre-multi-type data). Only the
normalised field differs from `Movie`. -/
structure LegacyMovie where
  id : String
  tmdbId : Option Int
  openLibraryId : Option String
  title : String
  year : String
  genre : List String
  description : String
  director : String
  status : MovieStatus
  rating : Int
  userReview : Option String
  posterPath : Option String
  posterSeed : Int
  addedAt : Int
  mediaType : Option MediaType
  tmdbRating : Option Int
  pageCount : Option Int
  plannedDate : Option String
  watchProviders : Option WatchProvidersData
  seasons : Option (List Season)
deriving DecidableEq, Repr

/-- The normalisation inside `migrateFromLocalStorage`:
`{ ...movie, mediaType: movie.mediaType || 'movie' }`. -/
def normalizeLegacy (m : LegacyMovie) : Movie :=
  { id := m.id, tmdbId := m.tmdbId, openLibraryId := m.openLibraryId
    title := m.title, year := m.year, genre := m.genre
    description := m.description, director := m.director
    status := m.status, rating := m.rating, userReview := m.userReview
    posterPath := m.posterPath, posterSeed := m.posterSeed
    addedAt := m.addedAt, mediaType := m.mediaType.getD .movie
    tmdbRating := m.tmdbRating, pageCount := m.pageCount
    plannedDate := m.plannedDate, watchProviders := m.watchProviders
    seasons := m.seasons }

/-- The observable outcomes of `JSON.parse` + `Array.isArray` on a
legacy payload: the parse throws, it yields a non-array value, or it
yields an array of legacy records. -/
inductive LegacyBlob where
  | malformed
  | nonArray
  | arr (ms : List LegacyMovie)
deriving DecidableEq, Repr

/-- State of the browser storage visible to `db.ts`: whether the
IndexedDB object store has been created, its contents (keyed by record
`id`), and the legacy localStorage payload. -/
structure DBState where
  created : Bool
  table : List Movie
  legacy : Option LegacyBlob
deriving DecidableEq, Repr

/-- IndexedDB `put` on a store with `keyPath: 'id'`: upsert by key. -/
def putRecord (m : Movie) (t : List Movie) : List Movie :=
  if t.any (fun x => x.id == m.id) then
    t.map (fun x => if x.id == m.id then m else x)
  else t ++ [m]

/-- `initDB` (`db.ts`): open the database, creating the `movies` object
store if absent; fails when storage is unavailable. -/
def initDB (avail : Bool) (st : DBState) : Except String DBState :=
  if avail then .ok { st with created := true }
  else .error "storage unavailable"

/-- Modelled from the spec: `persistStorage`, called by
`movieService.initStorage` but not present under `src/`, is
offline-caching/installable-app plumbing declared out of scope (a
storage-persistence request with no effect on the record table and no
failure surfaced). -/
def persistStorage (st : DBState) : DBState := st

/-- `migrateFromLocalStorage` (`db.ts`): if a legacy payload exists and
parses to a non-empty array, normalise and `put` every record, then
delete the legacy key; on a parse failure or a non-array (or empty)
payload, leave everything untouched and swallow the error. -/
def migrateFromLocalStorage (st : DBState) : DBState :=
  match st.legacy with
  | none => st
  | some .malformed => st
  | some .nonArray => st
  | some (.arr ms) =>
    if ms.isEmpty then st
    else
      { st with
        table := ms.foldl (fun t r => putRecord (normalizeLegacy r) t) st.table
        legacy := none }

/-- `getAllMovies` (`db.ts`). -/
def getAllMovies (st : DBState) : List Movie := st.table

/-- `bulkSaveMovies` (`db.ts`): clear the table, then `put` every given
record. -/
def bulkSaveMovies (ms : List Movie) (st : DBState) : DBState :=
  { st with table := ms.foldl (fun t m => putRecord m t) [] }

/-- `initStorage` (`movieService.ts`): `initDB`, then `persistStorage`,
then `migrateFromLocalStorage`, each awaited; an `initDB` failure
short-circuits the rest. -/
def initStorage (avail : Bool) (st : DBState) : Except String DBState :=
  (initDB avail st).map (fun st1 => migrateFromLocalStorage (persistStorage st1))

/-- The `init` effect in `App.tsx`: await `initStorage`, then load the
library; a thrown error is caught at this top level (logged, library
never loaded). Returns the logged error and the loaded collection. -/
def appInit (avail : Bool) (st : DBState) :
    Option String × Option (List Movie) :=
  match initStorage avail st with
  | .error e => (some e, none)
  | .ok st1 => (none, some (getAllMovies st1))

/-- `exportData` (`movieService.ts`): the snapshot serialises the full
collection verbatim as an array of records. -/
def exportData (movies : List Movie) : List Movie := movies

/-- The parsed content handed to `importData`: an array of records or
anything else. -/
inductive ImportBlob where
  | arr (ms : List Movie)
  | nonArray
deriving DecidableEq, Repr

/-- `importData` (`movieService.ts`): accept the parsed value only if it
is an array, otherwise reject with the descriptive error. -/
def importData (blob : ImportBlob) : Except String (List Movie) :=
  match blob with
  | .arr ms => .ok ms
  | .nonArray => .error "Invalid file format: Not an array"

/-- `overwriteLibrary` (`movieService.ts`): full replacement through
`bulkSaveMovies`. -/
def overwriteLibrary (ms : List Movie) (st : DBState) : DBState :=
  bulkSaveMovies ms st

/-! ## Order-theoretic facts about the up-next comparator -/

theorem lexLtChars_trans (x : List Char) :
    ∀ y z, lexLtChars x y = true → lexLtChars y z = true →
      lexLtChars x z = true := by
  induction x with
  | nil =>
    intro y z h1 h2
    cases y with
    | nil => simp [lexLtChars] at h1
    | cons d ds =>
      cases z with
      | nil => simp [lexLtChars] at h2
      | cons e es => simp [lexLtChars]
  | cons c cs ih =>
    intro y z h1 h2
    cases y with
    | nil => simp [lexLtChars] at h1
    | cons d ds =>
      cases z with
      | nil => simp [lexLtChars] at h2
      | cons e es =>
        by_cases hcd : c < d
        · by_cases hde : d < e
          · simp [lexLtChars, lt_trans hcd hde]
          · by_cases hed : e < d
            · simp [lexLtChars, hde, hed] at h2
            · have hde2 : d = e := le_antisymm (not_lt.mp hed) (not_lt.mp hde)
              subst hde2
              simp [lexLtChars, hcd]
        · by_cases hdc : d < c
          · simp [lexLtChars, hcd, hdc] at h1
          · have hcd2 : c = d := le_antisymm (not_lt.mp hdc) (not_lt.mp hcd)
            subst hcd2
            simp only [lexLtChars, hcd, lt_irrefl, if_neg, if_false] at h1 h2 ⊢
            by_cases hce : c < e
            · simp [hce]
            · by_cases hec : e < c
              · simp [hce, hec] at h2
              · simp only [hce, hec, if_false] at h1 h2 ⊢
                exact ih ds es h1 h2

theorem lexLtChars_asymm (x : List Char) :
    ∀ y, lexLtChars x y = true → lexLtChars y x = false := by
  induction x with
  | nil =>
    intro y h
    cases y with
    | nil => simp [lexLtChars] at h
    | cons d ds => simp [lexLtChars]
  | cons c cs ih =>
    intro y h
    cases y with
    | nil => simp [lexLtChars] at h
    | cons d ds =>
      by_cases hcd : c < d
      · simp [lexLtChars, hcd, not_lt_of_gt hcd]
      · by_cases hdc : d < c
        · simp [lexLtChars, hcd, hdc] at h
        · have hcd2 : c = d := le_antisymm (not_lt.mp hdc) (not_lt.mp hcd)
          subst hcd2
          simp only [lexLtChars, lt_irrefl, if_false] at h ⊢
          exact ih ds h

theorem lexLtChars_eq_of_not_lt (x : List Char) :
    ∀ y, lexLtChars x y = false → lexLtChars y x = false → x = y := by
  induction x with
  | nil =>
    intro y h1 _
    cases y with
    | nil => rfl
    | cons d ds => simp [lexLtChars] at h1
  | cons c cs ih =>
    intro y h1 h2
    cases y with
    | nil => simp [lexLtChars] at h2
    | cons d ds =>
      by_cases hcd : c < d
      · simp [lexLtChars, hcd] at h1
      · by_cases hdc : d < c
        · simp [lexLtChars, hdc] at h2
        · have hcd2 : c = d := le_antisymm (not_lt.mp hdc) (not_lt.mp hcd)
          subst hcd2
          simp only [lexLtChars, lt_irrefl, if_false] at h1 h2
          rw [ih ds h1 h2]

theorem strLtB_trans {s t u : String} (h1 : strLtB s t = true)
    (h2 : strLtB t u = true) : strLtB s u = true :=
  lexLtChars_trans s.data t.data u.data h1 h2

theorem strLtB_asymm {s t : String} (h : strLtB s t = true) :
    strLtB t s = false :=
  lexLtChars_asymm s.data t.data h

theorem strLtB_eq_of_not_lt {s t : String} (h1 : strLtB s t = false)
    (h2 : strLtB t s = false) : s = t := by
  have h := lexLtChars_eq_of_not_lt s.data t.data h1 h2
  cases s with
  | mk xs =>
    cases t with
    | mk ys => exact congrArg String.mk h

theorem strCmpInt_nonpos_iff (s t : String) :
    strCmpInt s t ≤ 0 ↔ strLtB t s = false := by
  unfold strCmpInt
  by_cases h1 : strLtB s t = true
  · simp [h1, strLtB_asymm h1]
  · simp only [h1, if_false, Bool.not_eq_true] at *
    by_cases h2 : strLtB t s = true
    · simp [h1, h2]
    · simp only [Bool.not_eq_true] at h2
      simp [h1, h2]

theorem lexLtChars_irrefl (x : List Char) : lexLtChars x x = false := by
  induction x with
  | nil => rfl
  | cons c cs ih => simp [lexLtChars, lt_irrefl, ih]

theorem strLtB_irrefl (s : String) : strLtB s s = false :=
  lexLtChars_irrefl s.data

theorem specDateLe_trans {s t u : String} (h1 : specDateLe s t)
    (h2 : specDateLe t u) : specDateLe s u := by
  unfold specDateLe at *
  by_cases h : strLtB u s = true
  · by_cases h3 : strLtB s t = true
    · have := strLtB_trans h h3
      simp [this] at h2
    · have h3f : strLtB s t = false := by
        cases hv : strLtB s t
        · rfl
        · exact absurd hv h3
      have hst : s = t := strLtB_eq_of_not_lt h3f h1
      subst hst
      simp [h] at h2
  · cases hv : strLtB u s
    · rfl
    · exact absurd hv h

theorem specDateLe_refl (s : String) : specDateLe s s := strLtB_irrefl s

theorem specDateLe_total (s t : String) : specDateLe s t ∨ specDateLe t s := by
  unfold specDateLe
  by_cases h : strLtB t s = true
  · exact Or.inr (strLtB_asymm h)
  · exact Or.inl (by cases hv : strLtB t s; rfl; exact absurd hv h)

theorem upLe_iff (a b : Movie) : upLe a b ↔ specUpNextLe a b := by
  unfold upLe cmpUpNext specUpNextLe
  cases hA : hasPlanned a <;> cases hB : hasPlanned b <;>
    simp [hA, hB, strCmpInt_nonpos_iff, sub_nonpos, specDateLe]

theorem upLe_refl (a : Movie) : upLe a a := by
  rw [upLe_iff]
  cases h : hasPlanned a
  · exact Or.inr (Or.inr ⟨h, h, le_refl _⟩)
  · exact Or.inl ⟨h, h, specDateLe_refl _⟩

instance : IsTotal Movie upLe := by
  constructor
  intro a b
  rw [upLe_iff, upLe_iff]
  unfold specUpNextLe
  cases hA : hasPlanned a <;> cases hB : hasPlanned b
  · rcases le_total a.addedAt b.addedAt with h | h
    · exact Or.inl (Or.inr (Or.inr ⟨rfl, rfl, h⟩))
    · exact Or.inr (Or.inr (Or.inr ⟨rfl, rfl, h⟩))
  · exact Or.inr (Or.inr (Or.inl ⟨rfl, rfl⟩))
  · exact Or.inl (Or.inr (Or.inl ⟨rfl, rfl⟩))
  · rcases specDateLe_total (dateOf a) (dateOf b) with h | h
    · exact Or.inl (Or.inl ⟨rfl, rfl, h⟩)
    · exact Or.inr (Or.inl ⟨rfl, rfl, h⟩)

instance : IsTrans Movie upLe := by
  constructor
  intro a b c hab hbc
  rw [upLe_iff] at hab hbc ⊢
  unfold specUpNextLe at hab hbc ⊢
  rcases hab with ⟨ha1, hb1, hd1⟩ | ⟨ha1, hb1⟩ | ⟨ha1, hb1, hn1⟩ <;>
    rcases hbc with ⟨hb2, hc2, hd2⟩ | ⟨hb2, hc2⟩ | ⟨hb2, hc2, hn2⟩
  · exact Or.inl ⟨ha1, hc2, specDateLe_trans hd1 hd2⟩
  · exact Or.inr (Or.inl ⟨ha1, hc2⟩)
  · rw [hb1] at hb2; cases hb2
  · rw [hb1] at hb2; cases hb2
  · rw [hb1] at hb2; cases hb2
  · exact Or.inr (Or.inl ⟨ha1, hc2⟩)
  · rw [hb1] at hb2; cases hb2
  · rw [hb1] at hb2; cases hb2
  · exact Or.inr (Or.inr ⟨ha1, hc2, le_trans hn1 hn2⟩)

/-- C7: For every collection and media-category group, the next-up pick
is a minimum of the to-consume records in that group under the order:
planned candidates compare by earlier date, a planned candidate outranks
an unplanned one, unplanned candidates compare by smaller `addedAt`; the
pick is absent exactly when the group has no to-consume records. -/
theorem upNext_pick_minimal (movies : List Movie) (types : List MediaType) :
    (upNextPick movies types = none ↔ upNextCandidates movies types = []) ∧
    ∀ m, upNextPick movies types = some m →
      m ∈ upNextCandidates movies types ∧
      ∀ c ∈ upNextCandidates movies types, specUpNextLe m c := by
  have hperm := List.perm_insertionSort upLe (upNextCandidates movies types)
  have hsort := List.sorted_insertionSort upLe (upNextCandidates movies types)
  constructor
  · unfold upNextPick
    cases hs : List.insertionSort upLe (upNextCandidates movies types) with
    | nil =>
      rw [hs] at hperm
      simp only [List.head?_nil, true_iff]
      exact hperm.symm.eq_nil
    | cons x xs =>
      rw [hs] at hperm
      simp only [List.head?_cons]
      constructor
      · intro h; exact Option.noConfusion h
      · intro hcand
        rw [hcand] at hperm
        exact absurd hperm.eq_nil (by simp)
  · intro m hm
    unfold upNextPick at hm
    cases hs : List.insertionSort upLe (upNextCandidates movies types) with
    | nil => rw [hs] at hm; cases hm
    | cons x xs =>
      rw [hs] at hm hperm hsort
      simp only [List.head?_cons, Option.some.injEq] at hm
      obtain rfl : m = x := hm.symm
      constructor
      · exact hperm.mem_iff.mp (List.mem_cons_self m xs)
      · intro c hc
        have hcs : c ∈ m :: xs := hperm.mem_iff.mpr hc
        rcases List.mem_cons.mp hcs with hceq | hctail
        · rw [hceq]
          exact (upLe_iff m m).mp (upLe_refl m)
        · exact (upLe_iff m c).mp (List.rel_of_sorted_cons hsort c hctail)

/-! ## Persistence-layer lemmas -/

theorem putRecord_fresh (m : Movie) (t : List Movie)
    (h : ∀ a ∈ t, (a.id == m.id) = false) :
    putRecord m t = t ++ [m] := by
  unfold putRecord
  have hany : t.any (fun x => x.id == m.id) = false := by
    rw [List.any_eq_false]
    intro x hx
    simp [h x hx]
  rw [hany]
  simp

theorem foldl_putRecord_fresh (ms : List Movie) :
    ∀ acc : List Movie,
      (∀ m ∈ ms, ∀ a ∈ acc, (a.id == m.id) = false) →
      (ms.map Movie.id).Nodup →
      ms.foldl (fun t m => putRecord m t) acc = acc ++ ms := by
  induction ms with
  | nil => intro acc _ _; simp
  | cons m rest ih =>
    intro acc hfresh hnodup
    have hput : putRecord m acc = acc ++ [m] :=
      putRecord_fresh m acc (hfresh m (List.mem_cons_self m rest))
    have hnodup2 : (rest.map Movie.id).Nodup := by
      simpa using (List.nodup_cons.mp hnodup).2
    have hnotmem : m.id ∉ rest.map Movie.id := by
      simpa using (List.nodup_cons.mp hnodup).1
    have hfresh2 : ∀ r ∈ rest, ∀ a ∈ acc ++ [m], (a.id == r.id) = false := by
      intro r hr a ha
      rcases List.mem_append.mp ha with haacc | ham
      · exact hfresh r (List.mem_cons_of_mem m hr) a haacc
      · have ham2 : a = m := by simpa using ham
        subst ham2
        have : a.id ≠ r.id := by
          intro hid
          exact hnotmem (hid ▸ List.mem_map_of_mem Movie.id hr)
        simp [this]
    calc (m :: rest).foldl (fun t x => putRecord x t) acc
        = rest.foldl (fun t x => putRecord x t) (acc ++ [m]) := by
          simp [List.foldl_cons, hput]
      _ = (acc ++ [m]) ++ rest := ih (acc ++ [m]) hfresh2 hnodup2
      _ = acc ++ m :: rest := by simp

/-- C9: exporting the full collection and importing that exact snapshot
through the overwrite path reproduces the original collection: the parse
step of the import accepts the snapshot verbatim, and after
`bulkSaveMovies` the store holds exactly the original records. -/
theorem export_import_roundtrip (ms : List Movie) (st : DBState)
    (h : (ms.map Movie.id).Nodup) :
    importData (.arr (exportData ms)) = .ok ms ∧
      getAllMovies (overwriteLibrary ms st) = ms := by
  constructor
  · rfl
  · unfold getAllMovies overwriteLibrary bulkSaveMovies
    simpa using foldl_putRecord_fresh ms [] (by intro m _ a ha; cases ha) h

/-- C8: when the record store cannot be initialised, the failure comes
out of `initStorage` as an error (migration and loading never run), and
the top-level `init` effect logs it and loads nothing. -/
theorem initStorage_failure_propagates (st : DBState) :
    initStorage false st = .error "storage unavailable" ∧
      appInit false st = (some "storage unavailable", none) := by
  constructor
  · rfl
  · rfl

/-- C6: when the legacy payload fails to parse or is not an array,
`initStorage` succeeds, the record table is unchanged and the legacy
payload is still present with its original value. -/
theorem initStorage_bad_legacy_preserved (st : DBState) (b : LegacyBlob)
    (h1 : st.legacy = some b) (h2 : b = .malformed ∨ b = .nonArray) :
    initStorage true st =
      .ok { created := true, table := st.table, legacy := st.legacy } := by
  obtain ⟨c, tb, lg⟩ := st
  have h1a : lg = some b := h1
  subst h1a
  rcases h2 with rfl | rfl <;> rfl

/-- C5: with a legacy payload parsing to a non-empty array of records
with distinct ids and an empty current-format store, `initStorage`
migrates every legacy record (defaulting a missing `mediaType` to the
film type), deletes the legacy payload, and a second `initStorage` call
is an error-free no-op. -/
theorem initStorage_migrates_once (st : DBState) (ms : List LegacyMovie)
    (h1 : st.table = []) (h2 : st.legacy = some (.arr ms)) (h3 : ms ≠ [])
    (h4 : (ms.map LegacyMovie.id).Nodup) :
    initStorage true st =
      .ok { created := true, table := ms.map normalizeLegacy, legacy := none } ∧
    initStorage true
        { created := true, table := ms.map normalizeLegacy, legacy := none } =
      .ok { created := true, table := ms.map normalizeLegacy, legacy := none } ∧
    ∀ r : LegacyMovie,
      (normalizeLegacy r).mediaType = r.mediaType.getD MediaType.movie := by
  refine ⟨?_, ?_, fun r => rfl⟩
  · unfold initStorage initDB persistStorage migrateFromLocalStorage
    have hne : ms.isEmpty = false := by
      cases ms with
      | nil => exact absurd rfl h3
      | cons a l => rfl
    simp only [h2, h1, hne, Except.map, if_true]
    have hfold :
        ms.foldl (fun t r => putRecord (normalizeLegacy r) t) [] =
          ms.map normalizeLegacy := by
      rw [← List.foldl_map normalizeLegacy (fun t m => putRecord m t) ms]
      have hids : ((ms.map normalizeLegacy).map Movie.id).Nodup := by
        rw [List.map_map]
        exact h4
      simpa using
        foldl_putRecord_fresh (ms.map normalizeLegacy) []
          (by intro m _ a ha; cases ha) hids
    simp [hfold]
  · rfl

/-! ## Reconciler lemmas -/

theorem dupMatches_buildCandidate (r : SId) (result : SearchResult)
    (hid : result.id = r) (t : MovieStatus) (newId : String)
    (seed now : Int) (m : Movie) :
    dupMatches m (buildCandidate result t newId seed now) = refMatches r m := by
  cases r with
  | num n =>
    cases hol : m.openLibraryId with
    | none => simp [dupMatches, buildCandidate, refMatches, hid, hol, strTruthy]
    | some s => simp [dupMatches, buildCandidate, refMatches, hid, hol, strTruthy]
  | str s =>
    cases htm : m.tmdbId with
    | none => simp [dupMatches, buildCandidate, refMatches, hid, htm, numTruthy]
    | some k => simp [dupMatches, buildCandidate, refMatches, hid, htm, numTruthy]

theorem refMatches_status_update (r : SId) (m : Movie) (t : MovieStatus) :
    refMatches r { m with status := t } = refMatches r m := by
  cases r <;> rfl

theorem refMatches_candidate (r : SId) (hr : sidTruthy r = true)
    (result : SearchResult) (hid : result.id = r) (t : MovieStatus)
    (newId : String) (seed now : Int) :
    refMatches r (buildCandidate result t newId seed now) = true := by
  cases r with
  | num n => simp_all [refMatches, buildCandidate, sidTruthy, numTruthy]
  | str s => simp_all [refMatches, buildCandidate, sidTruthy, strTruthy]

theorem addLoop_first_match (cand : Movie) (t : MovieStatus)
    (post : List Movie) (old : Movie) (hold : dupMatches old cand = true) :
    ∀ pre : List Movie, (∀ x ∈ pre, dupMatches x cand = false) →
      addLoop cand t (pre ++ old :: post) =
        some (pre ++ ({ old with status := t }) :: post,
          { old with status := t }) := by
  intro pre
  induction pre with
  | nil => intro _; simp [addLoop, hold]
  | cons x xs ih =>
    intro hpre
    have hx : dupMatches x cand = false := hpre x (List.mem_cons_self x xs)
    have hrest := ih (fun y hy => hpre y (List.mem_cons_of_mem x hy))
    simp [addLoop, hx, hrest]

theorem no_match_of_addLoop_none (cand : Movie) (t : MovieStatus) :
    ∀ coll : List Movie, addLoop cand t coll = none →
      ∀ m ∈ coll, dupMatches m cand = false := by
  intro coll
  induction coll with
  | nil => intro _ m hm; cases hm
  | cons x rest ih =>
    intro h m hm
    by_cases hx : dupMatches x cand = true
    · rw [addLoop, if_pos hx] at h
      cases h
    · have hxf : dupMatches x cand = false := by
        cases hv : dupMatches x cand
        · rfl
        · exact absurd hv hx
      rcases List.mem_cons.mp hm with rfl | hmr
      · exact hxf
      · rw [addLoop, if_neg (by simp [hxf])] at h
        cases har : addLoop cand t rest with
        | some v => rw [har] at h; cases h
        | none => exact ih har m hmr

theorem addLoop_some_filter (p : Movie → Bool) (cand : Movie)
    (t : MovieStatus) (hp : ∀ m, dupMatches m cand = p m)
    (hupd : ∀ m, p { m with status := t } = p m) :
    ∀ (coll coll2 : List Movie) (saved : Movie), coll.countP p ≤ 1 →
      addLoop cand t coll = some (coll2, saved) →
      (coll2.filter p).map Movie.status = [t] := by
  intro coll
  induction coll with
  | nil => intro coll2 saved _ h; cases h
  | cons x rest ih =>
    intro coll2 saved hcount h
    by_cases hx : dupMatches x cand = true
    · rw [addLoop, if_pos hx] at h
      have hinj := Option.some.inj h
      have hcoll2 : coll2 = { x with status := t } :: rest :=
        (congrArg Prod.fst hinj).symm
      have hpx : p x = true := (hp x) ▸ hx
      have hcount2 : rest.countP p = 0 := by
        have h2 := hcount
        rw [List.countP_cons, hpx] at h2
        simpa using h2
      have hfilter : rest.filter p = [] := by
        rw [List.filter_eq_nil_iff]
        intro a ha
        have := List.countP_eq_zero.mp hcount2 a ha
        simp [this]
      have hpupd : p { x with status := t } = true := (hupd x).trans hpx
      subst hcoll2
      simp [List.filter_cons, hpupd, hfilter]
    · have hxf : dupMatches x cand = false := by
        cases hv : dupMatches x cand
        · rfl
        · exact absurd hv hx
      rw [addLoop, if_neg (by simp [hxf])] at h
      cases har : addLoop cand t rest with
      | none => rw [har] at h; cases h
      | some v =>
        obtain ⟨r2, s2⟩ := v
        rw [har] at h
        have hinj := Option.some.inj h
        have hcoll2 : coll2 = x :: r2 := (congrArg Prod.fst hinj).symm
        have hpxf : p x = false := (hp x) ▸ hxf
        have hcount2 : rest.countP p ≤ 1 := by
          rw [List.countP_cons] at hcount
          simp [hpxf] at hcount
          omega
        subst hcoll2
        rw [List.filter_cons]
        simp only [hpxf, Bool.false_eq_true, if_false, ite_false]
        exact ih r2 s2 hcount2 har

theorem handleAddMovie_unique_step (r : SId) (hr : sidTruthy r = true)
    (result : SearchResult) (hid : result.id = r) (t : MovieStatus)
    (newId : String) (seed now : Int) (coll : List Movie)
    (hcount : coll.countP (refMatches r) ≤ 1) :
    (((handleAddMovie result t newId seed now coll).1).filter
      (refMatches r)).map Movie.status = [t] := by
  unfold handleAddMovie
  cases hal : addLoop (buildCandidate result t newId seed now) t coll with
  | none =>
    simp only [hal]
    have hnone := no_match_of_addLoop_none _ _ coll hal
    have hfilter : coll.filter (refMatches r) = [] := by
      rw [List.filter_eq_nil_iff]
      intro a ha
      have hzero := hnone a ha
      rw [dupMatches_buildCandidate r result hid t newId seed now a] at hzero
      simp [hzero]
    have hcand : refMatches r (buildCandidate result t newId seed now) = true :=
      refMatches_candidate r hr result hid t newId seed now
    rw [List.filter_cons]
    simp only [hcand, if_true, hfilter]
    simp [buildCandidate]
  | some v =>
    obtain ⟨coll2, saved⟩ := v
    simp only [hal]
    exact addLoop_some_filter (refMatches r) _ t
      (fun m => dupMatches_buildCandidate r result hid t newId seed now m)
      (fun m => refMatches_status_update r m t) coll coll2 saved hcount hal

theorem runAdds_unique_ref (r : SId) (hr : sidTruthy r = true) :
    ∀ (calls : List AddCall) (prev : List Movie) (hne : calls ≠ []),
      (∀ c ∈ calls, c.result.id = r) →
      prev.countP (refMatches r) ≤ 1 →
      ((runAdds prev calls).filter (refMatches r)).map Movie.status =
        [(calls.getLast hne).targetStatus] ∧
      (runAdds prev calls).countP (refMatches r) = 1 := by
  intro calls
  induction calls with
  | nil => intro prev hne _ _; exact absurd rfl hne
  | cons c rest ih =>
    intro prev hne hids hcount
    have hstep := handleAddMovie_unique_step r hr c.result
      (hids c (List.mem_cons_self c rest)) c.targetStatus c.newId c.seed
      c.now prev hcount
    have hcount1 :
        ((handleAddMovie c.result c.targetStatus c.newId c.seed c.now
          prev).1).countP (refMatches r) = 1 := by
      rw [List.countP_eq_length_filter]
      have := congrArg List.length hstep
      simpa using this
    cases rest with
    | nil =>
      constructor
      · simpa [runAdds, List.getLast] using hstep
      · simpa [runAdds] using hcount1
    | cons c2 rest2 =>
      have hrun : runAdds prev (c :: c2 :: rest2) =
          runAdds ((handleAddMovie c.result c.targetStatus c.newId c.seed
            c.now prev).1) (c2 :: rest2) := by
        simp [runAdds]
      have hids2 : ∀ x ∈ c2 :: rest2, x.result.id = r :=
        fun x hx => hids x (List.mem_cons_of_mem c hx)
      have hih := ih ((handleAddMovie c.result c.targetStatus c.newId c.seed
          c.now prev).1) (by simp) hids2 (le_of_eq hcount1)
      rw [hrun]
      rw [List.getLast_cons (by simp : (c2 :: rest2 : List AddCall) ≠ [])]
      exact hih

/-! ## Test fixtures -/

/-- A neutral record used as the base of concrete test inputs. -/
def baseMovie : Movie :=
  { id := "m1", tmdbId := none, openLibraryId := none, title := "T"
    year := "2020", genre := [], description := "", director := ""
    status := .watchlist, rating := 0, userReview := none
    posterPath := none, posterSeed := 1, addedAt := 0
    mediaType := .movie, tmdbRating := none, pageCount := none
    plannedDate := none, watchProviders := none, seasons := none }

/-- A tracked record with an external numeric reference and a planned
date, still on the watchlist. -/
def plannedTracked : Movie :=
  { baseMovie with
    id := "dup1"
    tmdbId := some 5
    plannedDate := some "2024-01-01" }

/-- A record with no external reference. -/
def otherMovie : Movie := { baseMovie with id := "o1" }

/-- A search result carrying the same numeric catalog id as
`plannedTracked`. -/
def searchResultFive : SearchResult :=
  { id := .num 5, title := "T", year := "2020", genre := []
    description := "", director := "", posterPath := none
    mediaType := .movie, voteAverage := 0, pageCount := none }

/-- A search result whose numeric catalog id is `0` (falsy in
JavaScript). -/
def resultZero : SearchResult :=
  { id := .num 0, title := "Zero", year := "2000", genre := []
    description := "", director := "", posterPath := none
    mediaType := .movie, voteAverage := 0, pageCount := none }

/-- A search result with the nonzero numeric catalog id `7`. -/
def resultSeven : SearchResult :=
  { id := .num 7, title := "Seven", year := "1995", genre := ["Crime"]
    description := "d", director := "F", posterPath := none
    mediaType := .movie, voteAverage := 8, pageCount := none }

def callSeven1 : AddCall := ⟨resultSeven, .watchlist, "u1", 3, 100⟩

def callSeven2 : AddCall := ⟨resultSeven, .watched, "u2", 4, 200⟩

/-- A concrete manual-entry form. -/
def manualForm : ManualForm :=
  { title := "Dune", year := "2024", director := "", description := ""
    genre := "Sci-Fi, Drama", mediaType := .movie }

/-! ## Claim C1 -/

/-- C1 counterexample: two `addFromSearch` calls whose results share the
numeric catalog id `0` leave two records with that external reference,
because the truthiness guard in the duplicate test never matches a zero
id. -/
theorem addFromSearch_zero_id_duplicate_cx :
    (runAdds [] [⟨resultZero, .watchlist, "u1", 1, 10⟩,
      ⟨resultZero, .watched, "u2", 2, 20⟩]).countP
        (fun m => m.tmdbId == some 0) = 2 := by decide

/-- C1 (amended): for every sequence of `addFromSearch` calls whose
results share the same truthy external reference (nonzero numeric
catalog-A id, or nonempty string catalog-B id), starting from a
collection with at most one record carrying that reference, the
resulting collection contains exactly one record with that reference and
its status is the target status of the most recent call. -/
theorem addFromSearch_dedup_latest_status (r : SId) (calls : List AddCall)
    (prev : List Movie) (hr : sidTruthy r = true) (hne : calls ≠ [])
    (hids : ∀ c ∈ calls, c.result.id = r)
    (hprev : prev.countP (refMatches r) ≤ 1) :
    (runAdds prev calls).countP (refMatches r) = 1 ∧
    ((runAdds prev calls).filter (refMatches r)).map Movie.status =
      [(calls.getLast hne).targetStatus] := by
  have h := runAdds_unique_ref r hr calls prev hne hids hprev
  exact ⟨h.2, h.1⟩

theorem addFromSearch_dedup_latest_status_witness :
    (runAdds [] [callSeven1, callSeven2]).countP (refMatches (.num 7)) = 1 ∧
    ((runAdds [] [callSeven1, callSeven2]).filter
      (refMatches (.num 7))).map Movie.status = [MovieStatus.watched] := by
  have h := addFromSearch_dedup_latest_status (.num 7)
    [callSeven1, callSeven2] [] (by decide) (by decide) (by decide)
    (by decide)
  exact ⟨h.1, h.2⟩

/-! ## Claim C2 -/

/-- C2 counterexample: re-adding a tracked title through the duplicate
branch of `handleAddMovie` with target status `watched` leaves the
existing `plannedDate` in place, so the persisted record has a planned
date while its status is no longer to-consume. -/
theorem dedup_branch_keeps_plannedDate_cx :
    (handleAddMovie searchResultFive .watched "new1" 9 50
      [plannedTracked]).2.status = MovieStatus.watched ∧
    (handleAddMovie searchResultFive .watched "new1" 9 50
      [plannedTracked]).2.plannedDate = some "2024-01-01" ∧
    (handleAddMovie searchResultFive .watched "new1" 9 50
      [plannedTracked]).2.plannedDate ≠ none := by decide

/-- C2 (amended): the quick status toggle clears `plannedDate` whenever
the status it produces is not to-consume; the duplicate branch of
`handleAddMovie`, by contrast, changes the status without touching
`plannedDate`. -/
theorem quick_toggle_clears_plannedDate (m : Movie)
    (h : (applyQuickUpdates (quickUpdates m) m).status ≠ .watchlist) :
    (applyQuickUpdates (quickUpdates m) m).plannedDate = none := by
  by_cases hw : m.status = .watchlist
  · simp [applyQuickUpdates, quickUpdates, hw]
  · have hb : (m.status == MovieStatus.watchlist) = false := by
      simp [hw]
    simp [applyQuickUpdates, quickUpdates, hb] at h

theorem quick_toggle_clears_plannedDate_witness :
    (applyQuickUpdates (quickUpdates plannedTracked)
      plannedTracked).status ≠ MovieStatus.watchlist ∧
    (applyQuickUpdates (quickUpdates plannedTracked)
      plannedTracked).plannedDate = none :=
  ⟨by decide, quick_toggle_clears_plannedDate plannedTracked (by decide)⟩

/-! ## Claim C3 -/

/-- C3: when `addFromSearch` finds an existing record with the same
external reference as the candidate, the collection keeps its length
(no new record), the matched record is replaced in place, and the
persisted and returned record differs from it only in `status`: every
other field is unchanged. -/
theorem handleAddMovie_dedup_status_only (result : SearchResult)
    (t : MovieStatus) (newId : String) (seed now : Int)
    (pre post : List Movie) (old : Movie)
    (hpre : ∀ x ∈ pre,
      dupMatches x (buildCandidate result t newId seed now) = false)
    (hold : dupMatches old (buildCandidate result t newId seed now) = true) :
    handleAddMovie result t newId seed now (pre ++ old :: post) =
      (pre ++ ({ old with status := t }) :: post, { old with status := t }) ∧
    (pre ++ ({ old with status := t } : Movie) :: post).length =
      (pre ++ old :: post).length ∧
    ({ old with status := t } : Movie).status = t ∧
    ({ old with status := t } : Movie).id = old.id ∧
    ({ old with status := t } : Movie).tmdbId = old.tmdbId ∧
    ({ old with status := t } : Movie).openLibraryId = old.openLibraryId ∧
    ({ old with status := t } : Movie).title = old.title ∧
    ({ old with status := t } : Movie).year = old.year ∧
    ({ old with status := t } : Movie).genre = old.genre ∧
    ({ old with status := t } : Movie).description = old.description ∧
    ({ old with status := t } : Movie).director = old.director ∧
    ({ old with status := t } : Movie).rating = old.rating ∧
    ({ old with status := t } : Movie).userReview = old.userReview ∧
    ({ old with status := t } : Movie).posterPath = old.posterPath ∧
    ({ old with status := t } : Movie).posterSeed = old.posterSeed ∧
    ({ old with status := t } : Movie).addedAt = old.addedAt ∧
    ({ old with status := t } : Movie).mediaType = old.mediaType ∧
    ({ old with status := t } : Movie).tmdbRating = old.tmdbRating ∧
    ({ old with status := t } : Movie).pageCount = old.pageCount ∧
    ({ old with status := t } : Movie).plannedDate = old.plannedDate ∧
    ({ old with status := t } : Movie).watchProviders = old.watchProviders ∧
    ({ old with status := t } : Movie).seasons = old.seasons := by
  refine ⟨?_, by simp, rfl, rfl, rfl, rfl, rfl, rfl, rfl, rfl, rfl, rfl,
    rfl, rfl, rfl, rfl, rfl, rfl, rfl, rfl, rfl, rfl⟩
  unfold handleAddMovie
  dsimp only
  rw [addLoop_first_match _ t post old hold pre hpre]

theorem handleAddMovie_dedup_status_only_witness :
    handleAddMovie searchResultFive .watched "new1" 9 50
        ([otherMovie] ++ plannedTracked :: []) =
      ([otherMovie] ++ ({ plannedTracked with status := .watched }) :: [],
        { plannedTracked with status := .watched }) :=
  (handleAddMovie_dedup_status_only searchResultFive .watched "new1" 9 50
    [otherMovie] [] plannedTracked (by decide) (by decide)).1

/-! ## Claim C4 -/

/-- C4 counterexample: a record created through the manual-entry path
does carry an external reference: `handleSubmit` uses `Date.now()` as a
numeric fallback id, which `handleAddMovie` stores as the catalog-A
(TMDB) reference. -/
theorem manual_entry_numeric_ref_cx :
    (buildCandidate (manualEntryResult manualForm 1700000000000) .watched
      "mid1" 3 1700000000001).tmdbId = some 1700000000000 ∧
    (buildCandidate (manualEntryResult manualForm 1700000000000) .watched
      "mid1" 3 1700000000001).tmdbId ≠ none := by
  constructor
  · rfl
  · intro h
    cases h.symm.trans (rfl : (buildCandidate
      (manualEntryResult manualForm 1700000000000) .watched "mid1" 3
      1700000000001).tmdbId = some 1700000000000)

/-- C4 (amended): a record created through the manual-entry path carries
the catalog-A numeric reference `Date.now()` and no catalog-B reference;
every record built by the add path holds at most one of the two kinds of
external reference, never both. -/
theorem add_path_single_reference (form : ManualForm) (mnow : Int)
    (result : SearchResult) (t t2 : MovieStatus) (newId newId2 : String)
    (seed seed2 now now2 : Int) :
    (buildCandidate (manualEntryResult form mnow) t newId seed now).tmdbId =
      some mnow ∧
    (buildCandidate (manualEntryResult form mnow) t newId seed
      now).openLibraryId = none ∧
    ((buildCandidate result t2 newId2 seed2 now2).tmdbId = none ∨
      (buildCandidate result t2 newId2 seed2 now2).openLibraryId = none) := by
  refine ⟨rfl, rfl, ?_⟩
  rcases hr : result.id with n | s
  · exact Or.inr (by simp [buildCandidate, hr])
  · exact Or.inl (by simp [buildCandidate, hr])

/-! ## Claim C10 -/

/-- C10: the quick status toggle maps watchlist to watched and any other
status back to watchlist; when the result is watched it also clears
`plannedDate`; it changes no other field of the record, and the
collection update rewrites only the record with the matching id. -/
theorem quick_status_toggle_spec (m : Movie) (movies : List Movie) :
    (m.status = .watchlist →
      (applyQuickUpdates (quickUpdates m) m).status = .watched ∧
      (applyQuickUpdates (quickUpdates m) m).plannedDate = none) ∧
    (m.status ≠ .watchlist →
      (applyQuickUpdates (quickUpdates m) m).status = .watchlist ∧
      (applyQuickUpdates (quickUpdates m) m).plannedDate = m.plannedDate) ∧
    (applyQuickUpdates (quickUpdates m) m).id = m.id ∧
    (applyQuickUpdates (quickUpdates m) m).tmdbId = m.tmdbId ∧
    (applyQuickUpdates (quickUpdates m) m).openLibraryId = m.openLibraryId ∧
    (applyQuickUpdates (quickUpdates m) m).title = m.title ∧
    (applyQuickUpdates (quickUpdates m) m).year = m.year ∧
    (applyQuickUpdates (quickUpdates m) m).genre = m.genre ∧
    (applyQuickUpdates (quickUpdates m) m).description = m.description ∧
    (applyQuickUpdates (quickUpdates m) m).director = m.director ∧
    (applyQuickUpdates (quickUpdates m) m).rating = m.rating ∧
    (applyQuickUpdates (quickUpdates m) m).userReview = m.userReview ∧
    (applyQuickUpdates (quickUpdates m) m).posterPath = m.posterPath ∧
    (applyQuickUpdates (quickUpdates m) m).posterSeed = m.posterSeed ∧
    (applyQuickUpdates (quickUpdates m) m).addedAt = m.addedAt ∧
    (applyQuickUpdates (quickUpdates m) m).mediaType = m.mediaType ∧
    (applyQuickUpdates (quickUpdates m) m).tmdbRating = m.tmdbRating ∧
    (applyQuickUpdates (quickUpdates m) m).pageCount = m.pageCount ∧
    (applyQuickUpdates (quickUpdates m) m).watchProviders =
      m.watchProviders ∧
    (applyQuickUpdates (quickUpdates m) m).seasons = m.seasons ∧
    handleQuickStatusUpdate m movies =
      movies.map (fun x =>
        if x.id == m.id then applyQuickUpdates (quickUpdates m) x else x) := by
  by_cases h : m.status = .watchlist
  · simp [applyQuickUpdates, quickUpdates, handleQuickStatusUpdate,
      updateMovieDetails, h]
  · have hb : (m.status == MovieStatus.watchlist) = false := by
      simp [h]
    simp [applyQuickUpdates, quickUpdates, handleQuickStatusUpdate,
      updateMovieDetails, h, hb]

theorem quick_status_toggle_spec_witness :
    plannedTracked.status = MovieStatus.watchlist ∧
    (applyQuickUpdates (quickUpdates plannedTracked)
      plannedTracked).status = MovieStatus.watched ∧
    (applyQuickUpdates (quickUpdates plannedTracked)
      plannedTracked).plannedDate = none :=
  have h := (quick_status_toggle_spec plannedTracked []).1 rfl
  ⟨rfl, h.1, h.2⟩

/-! ## Witnesses for the persistence claims -/

/-- A legacy record with no `mediaType`. -/
def legacyOld : LegacyMovie :=
  { id := "L1", tmdbId := some 3, openLibraryId := none, title := "Old"
    year := "1999", genre := ["Drama"], description := "", director := ""
    status := .watched, rating := 7, userReview := none
    posterPath := none, posterSeed := 2, addedAt := 5
    mediaType := none, tmdbRating := none, pageCount := none
    plannedDate := none, watchProviders := none, seasons := none }

/-- A legacy record that already carries a `mediaType`. -/
def legacyBook : LegacyMovie :=
  { legacyOld with
    id := "L2"
    mediaType := some .book }

/-- A fresh storage state holding a populated legacy payload. -/
def legacySt : DBState :=
  { created := false, table := [], legacy := some (.arr [legacyOld, legacyBook]) }

theorem initStorage_migrates_once_witness :
    initStorage true legacySt =
      .ok { created := true,
            table := [legacyOld, legacyBook].map normalizeLegacy,
            legacy := none } ∧
    initStorage true
        { created := true,
          table := [legacyOld, legacyBook].map normalizeLegacy,
          legacy := none } =
      .ok { created := true,
            table := [legacyOld, legacyBook].map normalizeLegacy,
            legacy := none } :=
  have h := initStorage_migrates_once legacySt [legacyOld, legacyBook]
    rfl rfl (by decide) (by decide)
  ⟨h.1, h.2.1⟩

/-- A storage state whose legacy payload fails to parse. -/
def malformedSt : DBState :=
  { created := false, table := [baseMovie], legacy := some .malformed }

theorem initStorage_bad_legacy_preserved_witness :
    initStorage true malformedSt =
      .ok { created := true, table := [baseMovie],
            legacy := some LegacyBlob.malformed } :=
  initStorage_bad_legacy_preserved malformedSt .malformed rfl (Or.inl rfl)

theorem export_import_roundtrip_witness :
    importData (.arr (exportData [otherMovie, plannedTracked])) =
      .ok [otherMovie, plannedTracked] ∧
    getAllMovies (overwriteLibrary [otherMovie, plannedTracked]
      malformedSt) = [otherMovie, plannedTracked] :=
  export_import_roundtrip [otherMovie, plannedTracked] malformedSt
    (by decide)

/-! ## Witness for the up-next claim -/

def upA : Movie :=
  { baseMovie with
    id := "A"
    plannedDate := some "2024-01-05"
    addedAt := 10 }

def upB : Movie :=
  { baseMovie with
    id := "B"
    plannedDate := some "2024-01-01"
    addedAt := 20 }

def upC : Movie :=
  { baseMovie with
    id := "C"
    addedAt := 100 }

def upD : Movie :=
  { baseMovie with
    id := "D"
    addedAt := 50 }

theorem upNext_pick_minimal_witness :
    upNextPick [upA, upB, upC, upD] [MediaType.movie, MediaType.tv] =
      some upB ∧
    upB ∈ upNextCandidates [upA, upB, upC, upD]
      [MediaType.movie, MediaType.tv] ∧
    specUpNextLe upB upA ∧ specUpNextLe upB upD :=
  have h := (upNext_pick_minimal [upA, upB, upC, upD]
    [MediaType.movie, MediaType.tv]).2 upB (by decide)
  ⟨by decide, h.1, h.2 upA (by decide), h.2 upD (by decide)⟩
